import Mathlib

/-!
Verification of the code-transformation core of `src/bot.py`.

The development shallowly embeds the pure transformation logic of the bot:
the syntax-repair pass `fix_syntax_errors`, the `safe_process` wrapper, the
line-level and tree-level transforms, the statistics and validation
reporters, and the button-callback dispatcher.

The host language parser (`compile` and `ast.parse`) and the external
formatting tools (autopep8, black, isort, radon, `ast.unparse`) are external
facilities for the embedded code: they are passed in as explicit function
parameters (oracles).  Theorems about all inputs are proved for every
oracle; concrete evaluations use `pythonParses`, a table recording the host
parser verdicts on the finitely many concrete strings appearing in this
development.

String primitives are modeled on ASCII text: `str.strip` and `str.rstrip`
remove the ASCII whitespace characters, and `str.splitlines` splits at the
ASCII line-break characters.  All concrete inputs used below are ASCII
except for the marker glyphs, which are never whitespace.
-/

set_option maxRecDepth 4000

/-! ## Python string primitives -/

/-- Characters removed by Python `str.strip()` / `str.rstrip()` (ASCII range). -/
def isPyWs (c : Char) : Bool :=
  c = ' ' ∨ c = '\t' ∨ c = '\n' ∨ c = '\x0d' ∨ c = '\x0b' ∨ c = '\x0c' ∨
  c = '\x1c' ∨ c = '\x1d' ∨ c = '\x1e' ∨ c = '\x1f'

/-- Line-break characters of Python `str.splitlines()` (ASCII range). -/
def isLineBreak (c : Char) : Bool :=
  c = '\n' ∨ c = '\x0d' ∨ c = '\x0b' ∨ c = '\x0c' ∨ c = '\x1c' ∨ c = '\x1d' ∨ c = '\x1e'

/-- Every line-break character is whitespace. -/
theorem isPyWs_of_isLineBreak {c : Char} (h : isLineBreak c = true) : isPyWs c = true := by
  simp only [isLineBreak, decide_eq_true_eq] at h
  rcases h with h | h | h | h | h | h | h <;> subst h <;> decide

/-- `str.lstrip()` on a character list. -/
def lstripL (l : List Char) : List Char := l.dropWhile isPyWs

/-- `str.rstrip()` on a character list. -/
def rstripL (l : List Char) : List Char := (l.reverse.dropWhile isPyWs).reverse

/-- `str.strip()` on a character list. -/
def stripL (l : List Char) : List Char := lstripL (rstripL l)

theorem dropWhile_dropWhile_self (p : Char → Bool) :
    ∀ l : List Char, (l.dropWhile p).dropWhile p = l.dropWhile p := by
  intro l
  induction l with
  | nil => rfl
  | cons c t ih =>
    by_cases h : p c
    · simp [List.dropWhile, h, ih]
    · simp [List.dropWhile, h]

theorem rstripL_idem (l : List Char) : rstripL (rstripL l) = rstripL l := by
  unfold rstripL
  rw [List.reverse_reverse, dropWhile_dropWhile_self]

theorem stripL_rstripL (l : List Char) : stripL (rstripL l) = stripL l := by
  unfold stripL
  rw [rstripL_idem]

/-- Membership in `rstripL l` implies membership in `l`. -/
theorem mem_of_mem_rstripL {c : Char} {l : List Char} (h : c ∈ rstripL l) : c ∈ l := by
  unfold rstripL at h
  rw [List.mem_reverse] at h
  have hm := (List.dropWhile_sublist (l := l.reverse) (p := isPyWs)).mem h
  rwa [List.mem_reverse] at hm

/-- `str.splitlines()` on a character list (ASCII line breaks, with CRLF folded). -/
def splitlinesL : List Char → List (List Char)
  | [] => []
  | '\x0d' :: '\n' :: cs => [] :: splitlinesL cs
  | c :: cs =>
    if isLineBreak c then [] :: splitlinesL cs
    else
      match splitlinesL cs with
      | [] => [[c]]
      | l :: ls => (c :: l) :: ls

/-- A line produced by `splitlinesL` contains no line-break character. -/
theorem splitlinesL_no_break :
    ∀ cs : List Char, ∀ l ∈ splitlinesL cs, ∀ c ∈ l, isLineBreak c = false := by
  intro cs
  induction cs using splitlinesL.induct with
  | case1 => intro l hl; simp [splitlinesL] at hl
  | case2 cs ih =>
    intro l hl
    rw [show splitlinesL ('\x0d' :: '\n' :: cs) = [] :: splitlinesL cs from rfl] at hl
    rcases List.mem_cons.mp hl with h | h
    · subst h; intro c hc; simp at hc
    · exact ih l h
  | case3 c cs hne hbrk ih =>
    intro l hl
    rw [splitlinesL.eq_3 c cs hne, if_pos hbrk] at hl
    rcases List.mem_cons.mp hl with h | h
    · subst h; intro x hx; simp at hx
    · exact ih l h
  | case4 c cs hne hbrk hnil ih =>
    intro l hl
    rw [splitlinesL.eq_3 c cs hne, if_neg hbrk, hnil] at hl
    simp only [List.mem_singleton] at hl
    subst hl
    intro x hx
    rcases List.mem_singleton.mp hx with hx
    subst hx
    simpa using hbrk
  | case5 c cs hne hbrk l0 ls0 hcons ih =>
    intro l hl
    rw [splitlinesL.eq_3 c cs hne, if_neg hbrk, hcons] at hl
    rcases List.mem_cons.mp hl with h | h
    · subst h
      intro x hx
      rcases List.mem_cons.mp hx with hx | hx
      · subst hx; simpa using hbrk
      · exact ih l0 (by rw [hcons]; exact List.mem_cons_self l0 ls0) x hx
    · exact ih l (by rw [hcons]; exact List.mem_cons.mpr (Or.inr h))

/-- Join a list of lines with a newline between consecutive lines
(the model of joining with a newline separator). -/
def joinNl : List (List Char) → List Char
  | [] => []
  | [l] => l
  | l :: ls => l ++ '\n' :: joinNl ls

/-- Splitting `l ++ newline :: cs` where `l` is break-free peels off `l`. -/
theorem splitlinesL_append_newline (l : List Char) (cs : List Char)
    (h : ∀ c ∈ l, isLineBreak c = false) :
    splitlinesL (l ++ '\n' :: cs) = l :: splitlinesL cs := by
  induction l with
  | nil =>
    show splitlinesL ('\n' :: cs) = [] :: splitlinesL cs
    rw [splitlinesL.eq_3 '\n' cs (by intro cs1 h1 _; exact absurd h1 (by decide)),
      if_pos (by decide)]
  | cons a t ih =>
    have ha : isLineBreak a = false := h a (List.mem_cons_self a t)
    have hta : ∀ c ∈ t, isLineBreak c = false := fun c hc => h c (List.mem_cons.mpr (Or.inr hc))
    show splitlinesL (a :: (t ++ '\n' :: cs)) = (a :: t) :: splitlinesL cs
    rw [splitlinesL.eq_3 a (t ++ '\n' :: cs)
        (by intro cs1 h1 _; rw [h1] at ha; exact absurd ha (by decide)),
      if_neg (by simp [ha]), ih hta]

/-- Splitting the newline-joined, newline-terminated text recovers the lines. -/
theorem splitlinesL_joinNl (ls : List (List Char)) (hne : ls ≠ [])
    (h : ∀ l ∈ ls, ∀ c ∈ l, isLineBreak c = false) :
    splitlinesL (joinNl ls ++ ['\n']) = ls := by
  induction ls with
  | nil => exact absurd rfl hne
  | cons l t ih =>
    cases t with
    | nil =>
      show splitlinesL (l ++ '\n' :: []) = [l]
      rw [splitlinesL_append_newline l [] (h l (List.mem_cons_self l []))]
      rfl
    | cons l2 t2 =>
      have hjoin : joinNl (l :: l2 :: t2) = l ++ '\n' :: joinNl (l2 :: t2) := rfl
      rw [hjoin, List.append_assoc, List.cons_append,
        splitlinesL_append_newline l _ (h l (List.mem_cons_self l _))]
      rw [ih (by simp) (fun m hm c hc => h m (List.mem_cons.mpr (Or.inr hm)) c hc)]

/-! ## StripComments core (src/bot.py lines 138-146, body of `remove_comments`)

A line is dropped when its stripped form is empty or starts with the comment
marker; kept lines are right-stripped and joined with newlines, with a
trailing newline when anything remains. -/

/-- The keep-condition of the loop: stripped line nonempty and not a comment. -/
def keepLine (l : List Char) : Bool :=
  match stripL l with
  | [] => false
  | c :: _ => !(c == '#')

/-- The `clean_lines` list built by the loop in `remove_comments`. -/
def cleanOf (cs : List Char) : List (List Char) :=
  ((splitlinesL cs).filter keepLine).map rstripL

/-- Body of `remove_comments` as a pure function on character lists. -/
def removeCommentsL (cs : List Char) : List Char :=
  match cleanOf cs with
  | [] => []
  | l :: ls => joinNl (l :: ls) ++ ['\n']

theorem keepLine_rstripL (l : List Char) : keepLine (rstripL l) = keepLine l := by
  unfold keepLine
  rw [stripL_rstripL]

theorem cleanOf_no_break (cs : List Char) :
    ∀ m ∈ cleanOf cs, ∀ c ∈ m, isLineBreak c = false := by
  intro m hm c hc
  unfold cleanOf at hm
  rcases List.mem_map.mp hm with ⟨l, hl, hml⟩
  have hl2 : l ∈ splitlinesL cs := (List.mem_filter.mp hl).1
  exact splitlinesL_no_break cs l hl2 c (mem_of_mem_rstripL (hml ▸ hc))

theorem cleanOf_removeCommentsL (cs : List Char) :
    cleanOf (removeCommentsL cs) = cleanOf cs := by
  rcases hc : cleanOf cs with _ | ⟨l, ls⟩
  · unfold removeCommentsL
    rw [hc]
    rfl
  · unfold removeCommentsL
    rw [hc]
    have hnb : ∀ m ∈ l :: ls, ∀ c ∈ m, isLineBreak c = false := by
      intro m hm
      exact cleanOf_no_break cs m (hc ▸ hm)
    have hsplit : splitlinesL (joinNl (l :: ls) ++ ['\n']) = l :: ls :=
      splitlinesL_joinNl (l :: ls) (by simp) hnb
    have hkeep : ∀ m ∈ l :: ls, keepLine m = true := by
      intro m hm
      have hm2 : m ∈ cleanOf cs := hc ▸ hm
      unfold cleanOf at hm2
      rcases List.mem_map.mp hm2 with ⟨l0, hl0, hml0⟩
      have : keepLine l0 = true := (List.mem_filter.mp hl0).2
      rw [← hml0, keepLine_rstripL]
      exact this
    have hmap : ∀ m ∈ l :: ls, rstripL m = m := by
      intro m hm
      have hm2 : m ∈ cleanOf cs := hc ▸ hm
      unfold cleanOf at hm2
      rcases List.mem_map.mp hm2 with ⟨l0, _, hml0⟩
      rw [← hml0, rstripL_idem]
    have key : cleanOf (joinNl (l :: ls) ++ ['\n']) = l :: ls := by
      unfold cleanOf
      rw [hsplit, List.filter_eq_self.mpr hkeep, List.map_congr_left hmap]
      simp
    rw [key]

theorem removeCommentsL_idem (cs : List Char) :
    removeCommentsL (removeCommentsL cs) = removeCommentsL cs := by
  have h : removeCommentsL (removeCommentsL cs) =
      match cleanOf (removeCommentsL cs) with
      | [] => []
      | l :: ls => joinNl (l :: ls) ++ ['\n'] := rfl
  rw [h, cleanOf_removeCommentsL cs]
  rfl

/-- The undecorated body of `remove_comments` on strings. -/
def remove_comments_core (s : String) : String := String.mk (removeCommentsL s.data)


/-! ## String helpers on `String` -/

/-- `p` is a literal prefix of `s` (model of Python `str.startswith`). -/
def listPre : List Char → List Char → Bool
  | [], _ => true
  | _ :: _, [] => false
  | a :: as, b :: bs => a == b && listPre as bs

def pyStartsWith (s p : String) : Bool := listPre p.data s.data

def pyEndsWith (s p : String) : Bool := listPre p.data.reverse s.data.reverse

/-- Substring containment (model of Python `needle in hay`). -/
def listInfix (needle : List Char) : List Char → Bool
  | [] => needle.isEmpty
  | c :: cs => listPre needle (c :: cs) || listInfix needle cs

def containsSub (hay needle : String) : Bool := listInfix needle.data hay.data

def pyContainsChar (s : String) (c : Char) : Bool := s.data.any (· == c)

def toLowerPy (s : String) : String := String.mk (s.data.map Char.toLower)

def pyStrip (s : String) : String := String.mk (stripL s.data)

def pyRstrip (s : String) : String := String.mk (rstripL s.data)

def splitlinesPy (s : String) : List String := (splitlinesL s.data).map String.mk

/-- Python `s.split("\n")`: always one part more than separators. -/
def splitNlL : List Char → List (List Char)
  | [] => [[]]
  | '\n' :: cs => [] :: splitNlL cs
  | c :: cs =>
    match splitNlL cs with
    | [] => [[c]]
    | l :: ls => (c :: l) :: ls

def splitNl (s : String) : List String := (splitNlL s.data).map String.mk

/-- Python `"\n".join(parts)`. -/
def joinWithNl (ls : List String) : String := String.mk (joinNl (ls.map String.data))

/-! ## `textwrap.dedent` (used by fix_syntax_errors at src/bot.py line 98)

CPython dedent first blanks out whitespace-only lines, then removes the
longest common leading run of spaces and tabs of the remaining lines. -/

/-- Longest common prefix of two character lists. -/
def commonPre : List Char → List Char → List Char
  | a :: as, b :: bs => if a = b then a :: commonPre as bs else []
  | _, _ => []

def isIndentChar (c : Char) : Bool := c = ' ' ∨ c = '\t'

def dedentMargin (lines : List String) : List Char :=
  let indents := lines.filterMap (fun l =>
    if l.data.any (fun c => !isIndentChar c) then some (l.data.takeWhile isIndentChar)
    else none)
  match indents with
  | [] => []
  | i :: rest => rest.foldl commonPre i

def dedentPy (s : String) : String :=
  let lines := splitNl s
  let blanked := lines.map (fun l =>
    if l ≠ "" ∧ l.data.all isIndentChar then "" else l)
  let margin := dedentMargin blanked
  let outLines :=
    if margin = [] then blanked
    else blanked.map (fun l =>
      if listPre margin l.data then String.mk (l.data.drop margin.length) else l)
  joinWithNl outLines

/-! ## Syntax trees (the fragment of the `ast` module used by src/bot.py)

Statement bodies use the list-like type `Stmts`.  Except-handlers are carried
in the same statement type (constructor `exceptHandler`) and occur only in the
handler position of `tryStmt`.  `simpleStmt` stands for any other simple
statement (assignments, returns, expression statements over non-constant
values such as calls); no embedded function distinguishes among those. -/

inductive PyExpr where
  | constE (isStr : Bool) (val : String)
  | nameE (id : String)
  | callE (fn : PyExpr) (arg : PyExpr)
  | joinedStr (a : PyExpr) (b : PyExpr)
  | formattedValue (v : PyExpr)
  | otherE
  deriving DecidableEq

mutual
inductive Stmt where
  | exprStmt (e : PyExpr)
  | passStmt
  | importStmt
  | importFromStmt
  | simpleStmt
  | functionDef (name : String) (body : Stmts)
  | asyncFunctionDef (name : String) (body : Stmts)
  | classDef (name : String) (body : Stmts)
  | ifStmt (body : Stmts) (orelse : Stmts)
  | exceptHandler (type : Option PyExpr) (nm : Option String) (body : Stmts)
  | tryStmt (body : Stmts) (handlers : Stmts) (orelse : Stmts) (finalbody : Stmts)
  deriving DecidableEq
inductive Stmts where
  | nil
  | cons (s : Stmt) (rest : Stmts)
  deriving DecidableEq
end

/-- An `ast.Module`: the module body. -/
structure PyModule where
  body : Stmts
  deriving DecidableEq

def stmtsOf : List Stmt → Stmts
  | [] => .nil
  | s :: r => .cons s (stmtsOf r)

def Stmts.isNil : Stmts → Bool
  | .nil => true
  | .cons _ _ => false

/-- `isinstance(node.body[0].value, (ast.Str, ast.Constant))`. -/
def isConstExpr : PyExpr → Bool
  | .constE _ _ => true
  | _ => false

/-! ## The host parser as an oracle -/

/-- Outcome of `compile(code, "<string>", "exec")` / `ast.parse(code)`:
success with the parse tree, a `SyntaxError` carrying `str(e)`, or any
other exception. -/
inductive ParseOutcome where
  | ok (tree : PyModule)
  | syntaxError (msg : String)
  | otherError (msg : String)
  deriving DecidableEq

def ParseOutcome.isOk : ParseOutcome → Bool
  | .ok _ => true
  | _ => false

/-! ## fix_syntax_errors (src/bot.py lines 67-113) -/

/-- The keyword list scanned at src/bot.py line 85, in source order. -/
def keywordList : List String :=
  ["if ", "elif ", "else", "for ", "while ", "def ", "class ", "try", "except", "finally", "with "]

/-- The per-line colon heuristic (src/bot.py lines 81-92): on a line whose
stripped form is nonempty and ends in neither a colon nor a backslash, the
first matching keyword is examined; a colon is appended when the keyword
strips to else/try/finally, or when the stripped line contains both
parentheses; the keyword loop breaks after the first match either way. -/
def fixLine (line : String) : String :=
  let stripped := pyStrip line
  if stripped ≠ "" ∧ pyEndsWith stripped ":" = false ∧ pyEndsWith stripped "\\" = false then
    match keywordList.find? (fun kw => pyStartsWith stripped kw) with
    | some kw =>
      if pyStrip kw = "else" ∨ pyStrip kw = "try" ∨ pyStrip kw = "finally" then
        line ++ ":"
      else if pyContainsChar stripped '(' && pyContainsChar stripped ')' then
        line ++ ":"
      else line
    | none => line
  else line

/-- src/bot.py lines 67-113: try to compile; on a SyntaxError run the colon
heuristic (only when the message mentions invalid syntax), dedent, strip
trailing whitespace, and re-compile; return the fixed text with the advisory
only when the re-compile succeeds, the original text otherwise. -/
def fixAttempt (code msg : String) : String :=
  let fixed1 :=
    if containsSub (toLowerPy msg) "invalid syntax" then
      joinWithNl ((splitNl code).map fixLine)
    else code
  let fixed2 := dedentPy fixed1
  joinWithNl ((splitNl fixed2).map pyRstrip)

def fix_syntax_errors (po : String → ParseOutcome) (code : String) : String × Option String :=
  match po code with
  | .ok _ => (code, none)
  | .otherError _ => (code, none)
  | .syntaxError msg =>
    match po (fixAttempt code msg) with
    | .ok _ => (fixAttempt code msg, some "⚠️ Auto-fixed syntax errors")
    | _ => (code, none)

/-! ## safe_process (src/bot.py lines 115-134) -/

/-- An exception escaping a wrapped transform: a `SyntaxError` or any other
exception, carrying `str(e)`. -/
inductive PyErr where
  | syntaxError (msg : String)
  | other (msg : String)
  deriving DecidableEq

/-- The failure text produced by the two `except` clauses of `safe_process`. -/
def pyErrString : PyErr → String
  | .syntaxError m =>
    "❌ Syntax Error: " ++ m ++ "\n\n💡 Tip: Check for missing colons, brackets, or quotes"
  | .other m => "❌ Error: " ++ m

/-- The decorator body: repair first, run the transform on the repaired text,
prepend the advisory to non-failure results, convert exceptions to failure
text. -/
def safe_process (po : String → ParseOutcome) (func : String → Except PyErr String)
    (code : String) : String :=
  let p := fix_syntax_errors po code
  match func p.1 with
  | .ok result =>
    match p.2 with
    | some m => if pyStartsWith result "❌" then result else m ++ "\n\n" ++ result
    | none => result
  | .error e => pyErrString e

/-! ## Docstring removal on trees

`DocstringRemover` (src/bot.py lines 183-203, inside `remove_docstrings`) and
`MinifyTransformer` (lines 239-267, inside `minify_code`) both visit children
first (`generic_visit`) and then, for function, async-function and class
nodes, pop a leading constant-expression statement, inserting `pass` when the
body becomes empty.  Only `MinifyTransformer` also defines `visit_Module`,
which pops a leading module-level constant without pass insertion. -/

/-- Pop a leading constant-expression from a body, inserting `pass` when the
body becomes empty (lines 186-190 and parallels). -/
def popDoc (b : Stmts) : Stmts :=
  match b with
  | .cons (.exprStmt (.constE _ _)) rest =>
    match rest with
    | .nil => .cons .passStmt .nil
    | r => r
  | b => b

mutual
def stripDocS : Stmt → Stmt
  | .functionDef n b => .functionDef n (popDoc (stripDocL b))
  | .asyncFunctionDef n b => .asyncFunctionDef n (popDoc (stripDocL b))
  | .classDef n b => .classDef n (popDoc (stripDocL b))
  | .ifStmt b o => .ifStmt (stripDocL b) (stripDocL o)
  | .exceptHandler t n b => .exceptHandler t n (stripDocL b)
  | .tryStmt b h o f => .tryStmt (stripDocL b) (stripDocL h) (stripDocL o) (stripDocL f)
  | s => s
def stripDocL : Stmts → Stmts
  | .nil => .nil
  | .cons s rest => .cons (stripDocS s) (stripDocL rest)
end

/-- The tree transform of `remove_docstrings`: `DocstringRemover().visit(tree)`.
There is no `visit_Module` case, so the module body is only visited
child-wise. -/
def docstringRemoverM (m : PyModule) : PyModule := ⟨stripDocL m.body⟩

/-- `visit_Module` of `MinifyTransformer` (lines 261-267): pop a leading
module-level constant, without pass insertion. -/
def popModuleDoc (b : Stmts) : Stmts :=
  match b with
  | .cons (.exprStmt (.constE _ _)) rest => rest
  | b => b

/-- The tree transform of `minify_code`: `MinifyTransformer().visit(tree)`. -/
def minifyTransformM (m : PyModule) : PyModule := ⟨popModuleDoc (stripDocL m.body)⟩

/-! ## Per-function try/except wrapping on trees
(`FunctionWrapper`, src/bot.py lines 367-413) -/

/-- The handler body `print(f"Error in NAME: curly-e")` built at lines 380-396. -/
def printHandlerBody (fnName : String) : Stmts :=
  .cons (.exprStmt (.callE (.nameE "print")
    (.joinedStr (.constE true ("Error in " ++ fnName ++ ": "))
      (.formattedValue (.nameE "e"))))) .nil

/-- `wrap_function_body` (lines 368-405): an empty body is returned unchanged,
otherwise the body is replaced by a single try statement whose single handler
catches `Exception` as `e` and prints the message. -/
def wrapBody (fnName : String) (body : Stmts) : Stmts :=
  match body with
  | .nil => .nil
  | b =>
    .cons (.tryStmt b
      (.cons (.exceptHandler (some (.nameE "Exception")) (some "e") (printHandlerBody fnName)) .nil)
      .nil .nil) .nil

mutual
def wrapS : Stmt → Stmt
  | .functionDef n b => .functionDef n (wrapBody n (wrapL b))
  | .asyncFunctionDef n b => .asyncFunctionDef n (wrapBody n (wrapL b))
  | .classDef n b => .classDef n (wrapL b)
  | .ifStmt b o => .ifStmt (wrapL b) (wrapL o)
  | .exceptHandler t n b => .exceptHandler t n (wrapL b)
  | .tryStmt b h o f => .tryStmt (wrapL b) (wrapL h) (wrapL o) (wrapL f)
  | s => s
def wrapL : Stmts → Stmts
  | .nil => .nil
  | .cons s rest => .cons (wrapS s) (wrapL rest)
end

/-- The tree transform of `wrap_functions_try_except`. -/
def wrapFunctionsM (m : PyModule) : PyModule := ⟨wrapL m.body⟩

/-! ## Well-formedness of trees

A tree is well-formed when every suite that the grammar requires to be
nonempty is nonempty: bodies of functions, classes, if statements, handlers
and try statements, and a try statement has a handler or a finally part.
This is the invariant that makes the unparsed text parse again. -/

mutual
def wfS : Stmt → Bool
  | .exprStmt _ => true
  | .passStmt => true
  | .importStmt => true
  | .importFromStmt => true
  | .simpleStmt => true
  | .functionDef _ b => !b.isNil && wfL b
  | .asyncFunctionDef _ b => !b.isNil && wfL b
  | .classDef _ b => !b.isNil && wfL b
  | .ifStmt b o => !b.isNil && wfL b && wfL o
  | .exceptHandler _ _ b => !b.isNil && wfL b
  | .tryStmt b h o f =>
    !b.isNil && (!h.isNil || !f.isNil) && wfL b && wfL h && wfL o && wfL f
def wfL : Stmts → Bool
  | .nil => true
  | .cons s rest => wfS s && wfL rest
end

def wfM (m : PyModule) : Bool := wfL m.body

/-! ## Node counting (`ast.walk` with `isinstance`, src/bot.py lines 299-301) -/

mutual
def countS (p : Stmt → Bool) : Stmt → Nat
  | .functionDef n b => (if p (.functionDef n b) then 1 else 0) + countL p b
  | .asyncFunctionDef n b => (if p (.asyncFunctionDef n b) then 1 else 0) + countL p b
  | .classDef n b => (if p (.classDef n b) then 1 else 0) + countL p b
  | .ifStmt b o => (if p (.ifStmt b o) then 1 else 0) + countL p b + countL p o
  | .exceptHandler t n b => (if p (.exceptHandler t n b) then 1 else 0) + countL p b
  | .tryStmt b h o f =>
    (if p (.tryStmt b h o f) then 1 else 0) + countL p b + countL p h + countL p o + countL p f
  | s => if p s then 1 else 0
def countL (p : Stmt → Bool) : Stmts → Nat
  | .nil => 0
  | .cons s rest => countS p s + countL p rest
end

def isFunctionDefP : Stmt → Bool
  | .functionDef _ _ => true
  | _ => false

def isClassDefP : Stmt → Bool
  | .classDef _ _ => true
  | _ => false

def isImportP : Stmt → Bool
  | .importStmt => true
  | .importFromStmt => true
  | _ => false

/-- `sum(1 for n in ast.walk(tree) if isinstance(n, ast.FunctionDef))`. -/
def countFunctions (m : PyModule) : Nat := countL isFunctionDefP m.body

/-- `sum(1 for n in ast.walk(tree) if isinstance(n, ast.ClassDef))`. -/
def countClasses (m : PyModule) : Nat := countL isClassDefP m.body

/-- `sum(1 for n in ast.walk(tree) if isinstance(n, (ast.Import, ast.ImportFrom)))`. -/
def countImports (m : PyModule) : Nat := countL isImportP m.body

/-! ## Well-formedness preservation of the tree transforms -/

theorem stripDocL_isNil (l : Stmts) : (stripDocL l).isNil = l.isNil := by
  cases l <;> rfl

theorem wrapL_isNil (l : Stmts) : (wrapL l).isNil = l.isNil := by
  cases l <;> rfl

theorem popDoc_isNil (l : Stmts) (h : l.isNil = false) : (popDoc l).isNil = false := by
  match l with
  | .nil => exact h
  | .cons (.exprStmt (.constE b v)) rest =>
    match rest with
    | .nil => rfl
    | .cons s2 r2 => rfl
  | .cons (.exprStmt (.nameE i)) rest => rfl
  | .cons (.exprStmt (.callE f a)) rest => rfl
  | .cons (.exprStmt (.joinedStr a b)) rest => rfl
  | .cons (.exprStmt (.formattedValue v)) rest => rfl
  | .cons (.exprStmt .otherE) rest => rfl
  | .cons .passStmt rest => rfl
  | .cons .importStmt rest => rfl
  | .cons .importFromStmt rest => rfl
  | .cons .simpleStmt rest => rfl
  | .cons (.functionDef n b) rest => rfl
  | .cons (.asyncFunctionDef n b) rest => rfl
  | .cons (.classDef n b) rest => rfl
  | .cons (.ifStmt b o) rest => rfl
  | .cons (.exceptHandler t n b) rest => rfl
  | .cons (.tryStmt b hh o f) rest => rfl

theorem andE {a b : Bool} (h : (a && b) = true) : a = true ∧ b = true := by
  simp only [Bool.and_eq_true] at h
  exact h

theorem wfL_popDoc (l : Stmts) (h : wfL l = true) : wfL (popDoc l) = true := by
  match l with
  | .nil => exact h
  | .cons (.exprStmt (.constE b v)) rest =>
    match rest with
    | .nil => rfl
    | .cons s2 r2 =>
      show wfL (.cons s2 r2) = true
      have h2 : (wfS (.exprStmt (.constE b v)) && wfL (.cons s2 r2)) = true := h
      exact (andE h2).2
  | .cons (.exprStmt (.nameE i)) rest => exact h
  | .cons (.exprStmt (.callE f a)) rest => exact h
  | .cons (.exprStmt (.joinedStr a b)) rest => exact h
  | .cons (.exprStmt (.formattedValue v)) rest => exact h
  | .cons (.exprStmt .otherE) rest => exact h
  | .cons .passStmt rest => exact h
  | .cons .importStmt rest => exact h
  | .cons .importFromStmt rest => exact h
  | .cons .simpleStmt rest => exact h
  | .cons (.functionDef n b) rest => exact h
  | .cons (.asyncFunctionDef n b) rest => exact h
  | .cons (.classDef n b) rest => exact h
  | .cons (.ifStmt b o) rest => exact h
  | .cons (.exceptHandler t n b) rest => exact h
  | .cons (.tryStmt b hh o f) rest => exact h

mutual
theorem wfS_stripDocS (s : Stmt) (h : wfS s = true) : wfS (stripDocS s) = true := by
  match s with
  | .exprStmt e => exact h
  | .passStmt => exact h
  | .importStmt => exact h
  | .importFromStmt => exact h
  | .simpleStmt => exact h
  | .functionDef n b =>
    have h2 := andE h
    have hnn : (popDoc (stripDocL b)).isNil = false :=
      popDoc_isNil _ (by rw [stripDocL_isNil]; simpa using h2.1)
    show (!(popDoc (stripDocL b)).isNil && wfL (popDoc (stripDocL b))) = true
    rw [hnn, wfL_popDoc _ (wfL_stripDocL b h2.2)]
    rfl
  | .asyncFunctionDef n b =>
    have h2 := andE h
    have hnn : (popDoc (stripDocL b)).isNil = false :=
      popDoc_isNil _ (by rw [stripDocL_isNil]; simpa using h2.1)
    show (!(popDoc (stripDocL b)).isNil && wfL (popDoc (stripDocL b))) = true
    rw [hnn, wfL_popDoc _ (wfL_stripDocL b h2.2)]
    rfl
  | .classDef n b =>
    have h2 := andE h
    have hnn : (popDoc (stripDocL b)).isNil = false :=
      popDoc_isNil _ (by rw [stripDocL_isNil]; simpa using h2.1)
    show (!(popDoc (stripDocL b)).isNil && wfL (popDoc (stripDocL b))) = true
    rw [hnn, wfL_popDoc _ (wfL_stripDocL b h2.2)]
    rfl
  | .ifStmt b o =>
    have h2 := andE h
    have h3 := andE h2.1
    show (!(stripDocL b).isNil && wfL (stripDocL b) && wfL (stripDocL o)) = true
    rw [stripDocL_isNil, wfL_stripDocL b h3.2, wfL_stripDocL o h2.2]
    simpa using h3.1
  | .exceptHandler t n b =>
    have h2 := andE h
    show (!(stripDocL b).isNil && wfL (stripDocL b)) = true
    rw [stripDocL_isNil, wfL_stripDocL b h2.2]
    simpa using h2.1
  | .tryStmt b hh o f =>
    simp only [wfS, Bool.and_eq_true] at h
    obtain ⟨⟨⟨⟨⟨hb, hho⟩, hwb⟩, hwh⟩, hwo⟩, hwf⟩ := h
    show (!(stripDocL b).isNil && (!(stripDocL hh).isNil || !(stripDocL f).isNil) &&
      wfL (stripDocL b) && wfL (stripDocL hh) && wfL (stripDocL o) && wfL (stripDocL f)) = true
    rw [stripDocL_isNil, stripDocL_isNil, stripDocL_isNil,
      wfL_stripDocL b hwb, wfL_stripDocL hh hwh, wfL_stripDocL o hwo, wfL_stripDocL f hwf]
    simp [hb, hho]
theorem wfL_stripDocL (l : Stmts) (h : wfL l = true) : wfL (stripDocL l) = true := by
  match l with
  | .nil => exact h
  | .cons s rest =>
    have h2 := andE h
    show (wfS (stripDocS s) && wfL (stripDocL rest)) = true
    rw [wfS_stripDocS s h2.1, wfL_stripDocL rest h2.2]
    rfl
end

theorem wrapBody_wf (fn : String) (l : Stmts) (hl : wfL l = true) (hn : l.isNil = false) :
    (wrapBody fn l).isNil = false ∧ wfL (wrapBody fn l) = true := by
  match l with
  | .nil => cases hn
  | .cons s0 r0 =>
    refine ⟨rfl, ?_⟩
    simp only [wfL, wfS, Bool.and_eq_true] at hl
    simp [wrapBody, wfL, wfS, printHandlerBody, Stmts.isNil, hl.1, hl.2]

mutual
theorem wfS_wrapS (s : Stmt) (h : wfS s = true) : wfS (wrapS s) = true := by
  match s with
  | .exprStmt e => exact h
  | .passStmt => exact h
  | .importStmt => exact h
  | .importFromStmt => exact h
  | .simpleStmt => exact h
  | .functionDef n b =>
    have h2 := andE h
    have hb : b.isNil = false := by simpa using h2.1
    have hw := wrapBody_wf n (wrapL b) (wfL_wrapL b h2.2) (by rw [wrapL_isNil]; exact hb)
    show (!(wrapBody n (wrapL b)).isNil && wfL (wrapBody n (wrapL b))) = true
    rw [hw.1, hw.2]
    rfl
  | .asyncFunctionDef n b =>
    have h2 := andE h
    have hb : b.isNil = false := by simpa using h2.1
    have hw := wrapBody_wf n (wrapL b) (wfL_wrapL b h2.2) (by rw [wrapL_isNil]; exact hb)
    show (!(wrapBody n (wrapL b)).isNil && wfL (wrapBody n (wrapL b))) = true
    rw [hw.1, hw.2]
    rfl
  | .classDef n b =>
    have h2 := andE h
    show (!(wrapL b).isNil && wfL (wrapL b)) = true
    rw [wrapL_isNil, wfL_wrapL b h2.2]
    simpa using h2.1
  | .ifStmt b o =>
    have h2 := andE h
    have h3 := andE h2.1
    show (!(wrapL b).isNil && wfL (wrapL b) && wfL (wrapL o)) = true
    rw [wrapL_isNil, wfL_wrapL b h3.2, wfL_wrapL o h2.2]
    simpa using h3.1
  | .exceptHandler t n b =>
    have h2 := andE h
    show (!(wrapL b).isNil && wfL (wrapL b)) = true
    rw [wrapL_isNil, wfL_wrapL b h2.2]
    simpa using h2.1
  | .tryStmt b hh o f =>
    simp only [wfS, Bool.and_eq_true] at h
    obtain ⟨⟨⟨⟨⟨hb, hho⟩, hwb⟩, hwh⟩, hwo⟩, hwf⟩ := h
    show (!(wrapL b).isNil && (!(wrapL hh).isNil || !(wrapL f).isNil) &&
      wfL (wrapL b) && wfL (wrapL hh) && wfL (wrapL o) && wfL (wrapL f)) = true
    rw [wrapL_isNil, wrapL_isNil, wrapL_isNil,
      wfL_wrapL b hwb, wfL_wrapL hh hwh, wfL_wrapL o hwo, wfL_wrapL f hwf]
    simp [hb, hho]
theorem wfL_wrapL (l : Stmts) (h : wfL l = true) : wfL (wrapL l) = true := by
  match l with
  | .nil => exact h
  | .cons s rest =>
    have h2 := andE h
    show (wfS (wrapS s) && wfL (wrapL rest)) = true
    rw [wfS_wrapS s h2.1, wfL_wrapL rest h2.2]
    rfl
end

/-! ## The environment: parser plus optional external tools

The module-level globals of src/bot.py (lines 27-45): the optional formatter
modules (`None` when an import failed), the complexity analyzer, and the host
parse/unparse facilities.  `rcc` returns `none` when `cc_visit` raises (that
exception is swallowed at lines 318-323); `fmtPct` and `fmtAvg` are the host
float renderings for the `:.1f` and `:.2f` format specifiers. -/

structure Env where
  po : String → ParseOutcome
  autopep8 : Option (String → Except String String)
  black : Option (String → Except String String)
  isort : Option (String → Except String String)
  rcc : Option (String → Option (List Int))
  unparse : PyModule → String
  fmtPct : Rat → String
  fmtAvg : Rat → String

/-! ## The transform operations (src/bot.py lines 137-417) -/

/-- `remove_comments` (lines 137-146): the decorated cleanup operation. -/
def remove_comments (po : String → ParseOutcome) : String → String :=
  safe_process po (fun c => .ok (remove_comments_core c))

/-- `beautify_code` (lines 148-156). -/
def beautify_code (env : Env) : String → String :=
  safe_process env.po (fun code => .ok (
    match env.autopep8 with
    | some tool =>
      match tool code with
      | .ok r => r
      | .error m => "❌ autopep8 error: " ++ m
    | none => "⚠️ autopep8 not installed"))

/-- `black_format` (lines 158-166). -/
def black_format (env : Env) : String → String :=
  safe_process env.po (fun code => .ok (
    match env.black with
    | some tool =>
      match tool code with
      | .ok r => r
      | .error m => "❌ Black error: " ++ m
    | none => "⚠️ Black not installed"))

/-- `sort_imports` (lines 168-176). -/
def sort_imports (env : Env) : String → String :=
  safe_process env.po (fun code => .ok (
    match env.isort with
    | some tool =>
      match tool code with
      | .ok r => r
      | .error m => "❌ isort error: " ++ m
    | none => "⚠️ isort not installed"))

/-- Body of `remove_docstrings` (lines 178-207): parse, run the
DocstringRemover, unparse; a parse failure raises out to `safe_process`. -/
def remove_docstrings_core (env : Env) (code : String) : Except PyErr String :=
  match env.po code with
  | .ok tree => .ok (env.unparse (docstringRemoverM tree))
  | .syntaxError m => .error (.syntaxError m)
  | .otherError m => .error (.other m)

def remove_docstrings (env : Env) : String → String :=
  safe_process env.po (remove_docstrings_core env)

/-! ### minify_code (lines 209-276) -/

/-- The in-string-aware truncation at the first unquoted `#`
(lines 216-228).  State: previous character (none at index 0) and the
current quote character when inside a string. -/
def scanHashL : List Char → Option Char → Option Char → List Char
  | [], _, _ => []
  | c :: rest, prev, inStr =>
    if (c = '"' ∨ c = Char.ofNat 39) ∧ prev ≠ some (Char.ofNat 92) then
      match inStr with
      | none => c :: scanHashL rest (some c) (some c)
      | some q => if c = q then c :: scanHashL rest (some c) none
                  else c :: scanHashL rest (some c) (some q)
    else if c = '#' ∧ inStr = none then []
    else c :: scanHashL rest (some c) inStr

def minifyStripLine (l : String) : String :=
  if pyContainsChar l '#' then String.mk (scanHashL l.data none none) else l

/-- Lines 213-234: strip unquoted inline comments, right-strip, drop empty
lines, join with newlines (no trailing newline). -/
def minifyCommentPhase (code : String) : String :=
  joinWithNl ((splitlinesPy code).filterMap (fun line =>
    let stripped := pyRstrip (minifyStripLine line)
    if stripped = "" then none else some stripped))

/-- Whitespace class of the host regex engine (ASCII range). -/
def isReWs (c : Char) : Bool :=
  c = ' ' ∨ c = '\t' ∨ c = '\n' ∨ c = '\x0d' ∨ c = '\x0b' ∨ c = '\x0c'

def countNl (l : List Char) : Nat := (l.filter (· == '\n')).length

def lastNlIdxAux : List Char → Nat → Option Nat → Option Nat
  | [], _, acc => acc
  | c :: rest, i, acc => lastNlIdxAux rest (i + 1) (if c = '\n' then some i else acc)

def lastNlIdx (l : List Char) : Nat := (lastNlIdxAux l 0 none).getD 0

/-- Line 274: substitute the pattern newline-ws-newline-ws-newlines by two
newlines.  A greedy leftmost match at a newline covers the whitespace run
from it up to the last newline of the run whenever the run holds at least
three newlines; the replacement scan then resumes after the match.  The fuel
is the remaining length, and each step consumes at least one character. -/
def collapseAux : Nat → List Char → List Char
  | 0, cs => cs
  | _ + 1, [] => []
  | fuel + 1, c :: rest =>
    if c = '\n' then
      let run := (c :: rest).takeWhile isReWs
      if 3 ≤ countNl run then
        '\n' :: '\n' :: collapseAux fuel (List.drop (lastNlIdx run + 1) (c :: rest))
      else c :: collapseAux fuel rest
    else c :: collapseAux fuel rest

def collapseBlanks (s : String) : String := String.mk (collapseAux s.data.length s.data)

/-- Body of `minify_code`: comment phase, parse, MinifyTransformer, unparse,
blank-line collapse, strip and add one trailing newline. -/
def minify_core (env : Env) (code : String) : Except PyErr String :=
  let code1 := minifyCommentPhase code
  match env.po code1 with
  | .ok tree => .ok (pyStrip (collapseBlanks (env.unparse (minifyTransformM tree))) ++ "\n")
  | .syntaxError m => .error (.syntaxError m)
  | .otherError m => .error (.other m)

def minify_code (env : Env) : String → String :=
  safe_process env.po (minify_core env)

/-! ### The try/except injectors (lines 329-417) -/

/-- Body of `add_try_except` (lines 330-336). -/
def add_try_except_core (code : String) : String :=
  "try:\n" ++ String.join ((splitlinesPy code).map (fun l => "    " ++ l ++ "\n"))
    ++ "except Exception as e:\n    print(f\x27Error: \x7be\x7d\x27)\n"

def add_try_except (po : String → ParseOutcome) : String → String :=
  safe_process po (fun c => .ok (add_try_except_core c))

/-- Body of `add_try_except_detailed` (lines 338-347). -/
def add_try_except_detailed_core (code : String) : String :=
  "import traceback\n\ntry:\n"
    ++ String.join ((splitlinesPy code).map (fun l => "    " ++ l ++ "\n"))
    ++ "except Exception as e:\n"
    ++ "    print(f\x27❌ Error occurred: \x7be\x7d\x27)\n"
    ++ "    traceback.print_exc()\n"

def add_try_except_detailed (po : String → ParseOutcome) : String → String :=
  safe_process po (fun c => .ok (add_try_except_detailed_core c))

/-- Body of `add_try_except_logging` (lines 349-360). -/
def add_try_except_logging_core (code : String) : String :=
  "import logging\nimport traceback\n\n"
    ++ "logging.basicConfig(level=logging.ERROR)\nlogger = logging.getLogger(__name__)\n\n"
    ++ "try:\n"
    ++ String.join ((splitlinesPy code).map (fun l => "    " ++ l ++ "\n"))
    ++ "except Exception as e:\n"
    ++ "    logger.error(f\x27Error: \x7be\x7d\x27)\n"
    ++ "    logger.error(traceback.format_exc())\n"

def add_try_except_logging (po : String → ParseOutcome) : String → String :=
  safe_process po (fun c => .ok (add_try_except_logging_core c))

/-- Body of `wrap_functions_try_except` (lines 362-417). -/
def wrap_functions_core (env : Env) (code : String) : Except PyErr String :=
  match env.po code with
  | .ok tree => .ok (env.unparse (wrapFunctionsM tree))
  | .syntaxError m => .error (.syntaxError m)
  | .otherError m => .error (.other m)

def wrap_functions_try_except (env : Env) : String → String :=
  safe_process env.po (wrap_functions_core env)

/-! ## Reporters (src/bot.py lines 278-327) -/

/-- `validate_syntax` (lines 278-290). -/
def validate_syntax (po : String → ParseOutcome) (code : String) : String :=
  let p := fix_syntax_errors po code
  match po p.1 with
  | .ok _ =>
    match p.2 with
    | some m => m ++ "\n✅ Syntax is now valid!"
    | none => "✅ Syntax is valid!"
  | .syntaxError m =>
    "❌ Syntax Error: " ++ m ++
      "\n\n💡 Common fixes:\n• Check for missing colons (:)\n• Check brackets matching\n• Check quote marks\n• Check indentation"
  | .otherError m => "❌ Error: " ++ m

/-- `len(complexity) or 1`: the mean divisor, floored at 1. -/
def avgDivisor (n : Nat) : Nat := if n = 0 then 1 else n

/-- `sum(x.complexity for x in complexity) / (len(complexity) or 1)`. -/
def avgComplexity (cs : List Int) : Rat :=
  ((cs.sum : Int) : Rat) / (avgDivisor cs.length : Rat)

/-- The statistics text of lines 305-312. -/
def statsReport (lines functions classes imports comments : Nat) : String :=
  "📊 Code Statistics\n\n📝 Lines of Code: " ++ toString lines ++
    "\n⚙️ Functions: " ++ toString functions ++
    "\n🏛 Classes: " ++ toString classes ++
    "\n📦 Imports: " ++ toString imports ++
    "\n💬 Comment Lines: " ++ toString comments ++ "\n"

/-- `code_stats` (lines 292-327): repair, parse the repaired text, count
definitions and imports on its full tree, count lines and comment lines on
the original text, optionally append the mean complexity; every failure is
caught and reported as a stats-error message. -/
def code_stats (env : Env) (code : String) : String :=
  let p := fix_syntax_errors env.po code
  match env.po p.1 with
  | .ok tree =>
    let functions := countFunctions tree
    let classes := countClasses tree
    let imports := countImports tree
    let lines := (splitlinesPy code).length
    let comments := ((splitlinesPy code).filter (fun l => pyStartsWith (pyStrip l) "#")).length
    let stats := statsReport lines functions classes imports comments
    let stats :=
      match p.2 with
      | some m => m ++ "\n\n" ++ stats
      | none => stats
    match env.rcc with
    | some cc =>
      match cc p.1 with
      | some comps => stats ++ "🧮 Avg Complexity: " ++ env.fmtAvg (avgComplexity comps) ++ "\n"
      | none => stats
    | none => stats
  | .syntaxError m => "❌ Stats error: " ++ m ++ "\n\n💡 Make sure your code has valid Python syntax"
  | .otherError m => "❌ Stats error: " ++ m ++ "\n\n💡 Make sure your code has valid Python syntax"

/-! ## The dispatcher (`button_callback`, src/bot.py lines 559-666) -/

/-- The classification at line 640: a result is delivered as a file exactly
when it is truthy and starts with neither the failure nor the warning
glyph. -/
def sentAsFile (r : String) : Bool :=
  !(r == "") && !(pyStartsWith r "❌") && !(pyStartsWith r "⚠️")

/-- The `operations` registry (lines 611-624). -/
def operationsMap (env : Env) (op : String) : Option (String → String) :=
  if op = "cleanup" then some (remove_comments env.po)
  else if op = "beautify" then some (beautify_code env)
  else if op = "black" then some (black_format env)
  else if op = "imports" then some (sort_imports env)
  else if op = "minify" then some (minify_code env)
  else if op = "docstrings" then some (remove_docstrings env)
  else if op = "validate" then some ( validate_syntax env.po)
  else if op = "stats" then some (code_stats env)
  else if op = "tryexcept_basic" then some (add_try_except env.po)
  else if op = "tryexcept_detailed" then some (add_try_except_detailed env.po)
  else if op = "tryexcept_logging" then some (add_try_except_logging env.po)
  else if op = "tryexcept_functions" then some (wrap_functions_try_except env)
  else none

/-- What the callback does with a button press: re-render a menu, send a
text message, or send the result as a file with a caption. -/
inductive DispatchOutcome where
  | menu
  | message (text : String)
  | fileOut (content : String) (caption : String)
  deriving DecidableEq

/-- The caption built at lines 644-653. -/
def fileCaption (env : Env) (op filename : String) (origSize newSize : Nat) : String :=
  let reduction : Rat :=
    if 0 < origSize then ((origSize : Rat) - (newSize : Rat)) / (origSize : Rat) * 100 else 0
  "✅ Operation: " ++ op ++ "\n📁 File: optimized_" ++ filename ++ "\n"
    ++ "📏 Original: " ++ toString origSize ++ " chars\n"
    ++ "📏 New: " ++ toString newSize ++ " chars\n"
    ++ (if op = "minify" ∧ 0 < reduction then "🗜️ Reduced by: " ++ env.fmtPct reduction ++ "%"
        else "")

/-- `button_callback` after `query.answer()` (lines 564-662): menu
navigation, the stored-code check, registry lookup, invocation, and the
file-versus-text classification.  `code` is the stored user code (falsy when
absent or empty). -/
def buttonDispatch (env : Env) (op : String) (code : Option String) (filename : String) :
    DispatchOutcome :=
  if op = "tryexcept_menu" then .menu
  else if op = "back_main" then .menu
  else
    match code with
    | none => .message "❌ No code found. Please send code first!"
    | some c =>
      if c = "" then .message "❌ No code found. Please send code first!"
      else
        match operationsMap env op with
        | none => .message "❌ Unknown operation"
        | some f =>
          let result := f c
          if op = "validate" ∨ op = "stats" then .message result
          else if sentAsFile result then
            .fileOut result (fileCaption env op filename c.data.length result.data.length)
          else .message result

/-! ## Recorded host-parser verdicts and concrete test data

`pythonParses` records the verdict of `compile(s, "<string>", "exec")` /
`ast.parse(s)` on the concrete strings used below, with the `str(e)` message
of the raised error.  Strings outside the table get an unspecific failure
verdict; no theorem below depends on the default row. -/

/-- End-to-end scenario input of the specification: missing colon after if. -/
def xC2 : String := "x=1\nif x==1\n    print(x)\n"

/-- A program that fails only by an unexpected leading indent; dedent
repairs it. -/
def xIndent : String := "    x = 1"

/-- `remove_comments` output on `xIndent`: advisory plus cleaned text. -/
def y9 : String := "⚠️ Auto-fixed syntax errors\n\nx = 1\n"

/-- `add_try_except` output on the empty input: a try block with no body. -/
def tryBadOut : String := "try:\nexcept Exception as e:\n    print(f\x27Error: \x7be\x7d\x27)\n"

/-- The fixed 40-line sample program of the statistics-accuracy property:
2 function definitions, 1 class definition, 3 import statements, 5 comment
lines, 40 lines. -/
def sample40 : String := "# sample module\nimport os\nimport sys\nfrom math import sqrt\n\n# helpers\ndef f(x):\n    # double the value\n    return x * 2\n\ndef g(x):\n    # triple the value\n    return x * 3\n\n# container class\nclass C:\n    a = 1\n    b = 2\n    c = 3\n\nx1 = f(1)\nx2 = f(2)\nx3 = g(3)\nx4 = g(4)\nx5 = sqrt(16)\n\ny1 = x1 + x2\ny2 = x3 + x4\ny3 = y1 + y2\n\nprint(x1)\nprint(x2)\nprint(x3)\nprint(x4)\nprint(x5)\n\nprint(y1)\nprint(y2)\nprint(y3)\nprint(os.name)\n"

/-- The parse tree of `sample40`. -/
def sampleTree : PyModule :=
  ⟨stmtsOf [
    .importStmt, .importStmt, .importFromStmt,
    .functionDef "f" (stmtsOf [.simpleStmt]),
    .functionDef "g" (stmtsOf [.simpleStmt]),
    .classDef "C" (stmtsOf [.simpleStmt, .simpleStmt, .simpleStmt]),
    .simpleStmt, .simpleStmt, .simpleStmt, .simpleStmt, .simpleStmt,
    .simpleStmt, .simpleStmt, .simpleStmt,
    .simpleStmt, .simpleStmt, .simpleStmt, .simpleStmt, .simpleStmt,
    .simpleStmt, .simpleStmt, .simpleStmt, .simpleStmt]⟩

/-- Recorded verdicts of the host parser on the concrete strings of this
development. -/
def pythonParses : String → ParseOutcome := fun s =>
  if s = "" then .ok ⟨.nil⟩
  else if s = "x = 1" then .ok ⟨stmtsOf [.simpleStmt]⟩
  else if s = "# a" then .ok ⟨.nil⟩
  else if s = sample40 then .ok sampleTree
  else if s = xIndent then .syntaxError "unexpected indent (<string>, line 1)"
  else if s = xC2 then .syntaxError "invalid syntax (<string>, line 2)"
  else if s = y9 then .syntaxError "invalid character \x27⚠\x27 (U+26A0) (<string>, line 1)"
  else if s = tryBadOut then
    .syntaxError "expected an indented block after \x27try\x27 statement on line 1 (<string>, line 1)"
  else .syntaxError "unrecorded input"

/-- These two functions stand for host facilities that no theorem below ever
evaluates; the dispatch paths exercised below never reach them. -/
def unparseUnused : PyModule → String := fun _ => ""

def fmtUnused : Rat → String := fun _ => ""

/-- The module globals as they are when none of the optional tools imported. -/
def envBare : Env :=
  { po := pythonParses, autopep8 := none, black := none, isort := none, rcc := none,
    unparse := unparseUnused, fmtPct := fmtUnused, fmtAvg := fmtUnused }

/-! ## Helper lemmas for prefix reasoning -/

theorem str_data_append (a b : String) : (a ++ b).data = a.data ++ b.data := rfl

theorem listPre_append (p l l2 : List Char) (h : listPre p l = true) :
    listPre p (l ++ l2) = true := by
  induction p generalizing l with
  | nil => rfl
  | cons a as ih =>
    cases l with
    | nil => cases h
    | cons b bs =>
      have h2 := andE h
      show (a == b && listPre as (bs ++ l2)) = true
      rw [h2.1, ih bs h2.2]
      rfl

/-- A prefix of the left summand is a prefix of the concatenation. -/
theorem pyStartsWith_append (pre suf g : String) (h : pyStartsWith pre g = true) :
    pyStartsWith (pre ++ suf) g = true := by
  unfold pyStartsWith at h ⊢
  rw [str_data_append]
  exact listPre_append g.data pre.data suf.data h

/-! ## C1: repair safety -/

/-- Exhaustive case analysis of `fix_syntax_errors`: either the input comes
back unchanged with no advisory, or the repaired attempt parses and is
returned with the advisory while the input itself had a syntax error. -/
theorem fix_of_ok (po : String → ParseOutcome) (x : String) (t : PyModule)
    (h : po x = .ok t) : fix_syntax_errors po x = (x, none) := by
  unfold fix_syntax_errors
  rw [h]

theorem fix_of_otherError (po : String → ParseOutcome) (x m0 : String)
    (h : po x = .otherError m0) : fix_syntax_errors po x = (x, none) := by
  unfold fix_syntax_errors
  rw [h]

theorem fix_of_syntaxError (po : String → ParseOutcome) (x msg : String)
    (h : po x = .syntaxError msg) :
    fix_syntax_errors po x =
      match po (fixAttempt x msg) with
      | .ok _ => (fixAttempt x msg, some "⚠️ Auto-fixed syntax errors")
      | _ => (x, none) := by
  unfold fix_syntax_errors
  rw [h]

theorem fix_cases (po : String → ParseOutcome) (x : String) :
    fix_syntax_errors po x = (x, none) ∨
    (∃ msg t, po x = .syntaxError msg ∧ po (fixAttempt x msg) = .ok t ∧
      fix_syntax_errors po x = (fixAttempt x msg, some "⚠️ Auto-fixed syntax errors")) := by
  cases h1 : po x with
  | ok t => exact Or.inl (fix_of_ok po x t h1)
  | otherError m0 => exact Or.inl (fix_of_otherError po x m0 h1)
  | syntaxError msg =>
    have heq := fix_of_syntaxError po x msg h1
    cases h2 : po (fixAttempt x msg) with
    | ok t2 =>
      rw [h2] at heq
      exact Or.inr ⟨msg, t2, rfl, h2, heq⟩
    | syntaxError m2 =>
      rw [h2] at heq
      exact Or.inl heq
    | otherError m2 =>
      rw [h2] at heq
      exact Or.inl heq

/-- C1: for every parser oracle and input, the repair pass either returns the
input unchanged with no advisory, or returns a text with the advisory that
parses and differs from the input; an already-parsing input is returned
unchanged with no advisory. -/
theorem c1_repair_safety (po : String → ParseOutcome) (x : String) :
    ((fix_syntax_errors po x).2 = none → (fix_syntax_errors po x).1 = x) ∧
    (∀ m, (fix_syntax_errors po x).2 = some m →
      m = "⚠️ Auto-fixed syntax errors" ∧
      (po (fix_syntax_errors po x).1).isOk = true ∧
      (fix_syntax_errors po x).1 ≠ x) ∧
    ((po x).isOk = true → fix_syntax_errors po x = (x, none)) := by
  rcases fix_cases po x with h | ⟨msg, t, h1, h2, h3⟩
  · rw [h]
    exact ⟨fun _ => rfl, fun m hm => Option.noConfusion hm, fun _ => rfl⟩
  · rw [h3]
    refine ⟨fun hn => Option.noConfusion hn, fun m hm => ?_, fun hok => ?_⟩
    · have hm2 : "⚠️ Auto-fixed syntax errors" = m := by injection hm
      refine ⟨hm2.symm, ?_, ?_⟩
      · show (po (fixAttempt x msg)).isOk = true
        rw [h2]
        rfl
      · intro heq
        have heq2 : fixAttempt x msg = x := heq
        rw [heq2, h1] at h2
        exact ParseOutcome.noConfusion h2
    · rw [h1] at hok
      simp [ParseOutcome.isOk] at hok

/-- Witness for C1 at the concrete input `xIndent`, whose repair succeeds by
dedenting. -/
theorem c1_repair_safety_witness :
    (pythonParses (fix_syntax_errors pythonParses xIndent).1).isOk = true ∧
    (fix_syntax_errors pythonParses xIndent).1 ≠ xIndent :=
  ⟨((c1_repair_safety pythonParses xIndent).2.1 "⚠️ Auto-fixed syntax errors" (by decide)).2.1,
   ((c1_repair_safety pythonParses xIndent).2.1 "⚠️ Auto-fixed syntax errors" (by decide)).2.2⟩

/-! ## C2: the colon heuristic -/

/-- C2 counterexample: on the end-to-end scenario input (missing colon after
the if), the colon heuristic appends nothing, because the if-line contains no
parentheses; repair returns the input unchanged with no advisory and validate
reports a syntax error instead of an advisory-prefixed success report. -/
theorem c2_counterexample :
    fix_syntax_errors pythonParses xC2 = (xC2, none) ∧
    validate_syntax pythonParses xC2 =
      "❌ Syntax Error: invalid syntax (<string>, line 2)\n\n💡 Common fixes:\n• Check for missing colons (:)\n• Check brackets matching\n• Check quote marks\n• Check indentation" := by
  exact ⟨by decide, by decide⟩

/-- The exact condition under which the colon heuristic of lines 81-92 fires
on a line: the stripped line is nonempty and ends in neither a colon nor a
backslash, and the first keyword of the list it starts with either strips to
else/try/finally or the stripped line contains both parentheses. -/
abbrev colonCondition (line : String) : Prop :=
  pyStrip line ≠ "" ∧ pyEndsWith (pyStrip line) ":" = false ∧
  pyEndsWith (pyStrip line) "\\" = false ∧
  ∃ kw, keywordList.find? (fun k => pyStartsWith (pyStrip line) k) = some kw ∧
    ((pyStrip kw = "else" ∨ pyStrip kw = "try" ∨ pyStrip kw = "finally") ∨
      (pyContainsChar (pyStrip line) '(' = true ∧ pyContainsChar (pyStrip line) ')' = true))

/-- Complete case analysis of `fixLine`: the colon is appended when
`colonCondition` holds and the line is untouched otherwise. -/
theorem fixLine_char (line : String) :
    (colonCondition line ∧ fixLine line = line ++ ":") ∨
    (¬colonCondition line ∧ fixLine line = line) := by
  by_cases h1 : pyStrip line ≠ "" ∧ pyEndsWith (pyStrip line) ":" = false ∧
      pyEndsWith (pyStrip line) "\\" = false
  · cases hf : keywordList.find? (fun k => pyStartsWith (pyStrip line) k) with
    | none =>
      right
      constructor
      · rintro ⟨_, _, _, kw, hkw, _⟩
        rw [hf] at hkw
        exact Option.noConfusion hkw
      · simp only [fixLine]
        rw [if_pos h1, hf]
    | some kw =>
      have hv : fixLine line =
          (if pyStrip kw = "else" ∨ pyStrip kw = "try" ∨ pyStrip kw = "finally" then line ++ ":"
           else if pyContainsChar (pyStrip line) '(' && pyContainsChar (pyStrip line) ')' then
             line ++ ":"
           else line) := by
        simp only [fixLine]
        rw [if_pos h1, hf]
      by_cases h2 : pyStrip kw = "else" ∨ pyStrip kw = "try" ∨ pyStrip kw = "finally"
      · rw [if_pos h2] at hv
        exact Or.inl ⟨⟨h1.1, h1.2.1, h1.2.2, kw, hf, Or.inl h2⟩, hv⟩
      · rw [if_neg h2] at hv
        by_cases h3 : (pyContainsChar (pyStrip line) '(' && pyContainsChar (pyStrip line) ')')
            = true
        · rw [if_pos h3] at hv
          exact Or.inl ⟨⟨h1.1, h1.2.1, h1.2.2, kw, hf, Or.inr (andE h3)⟩, hv⟩
        · rw [if_neg h3] at hv
          right
          refine ⟨?_, hv⟩
          rintro ⟨_, _, _, kw2, hkw2, hd⟩
          rw [hf] at hkw2
          have hkweq : kw2 = kw := by
            injection hkw2 with h
            exact h.symm
          subst hkweq
          rcases hd with hd | hd
          · exact h2 hd
          · exact h3 (by rw [hd.1, hd.2]; rfl)
  · right
    constructor
    · rintro ⟨ha, hb, hc, _⟩
      exact h1 ⟨ha, hb, hc⟩
    · simp only [fixLine]
      rw [if_neg h1]

/-- C2 amended: the colon heuristic changes a line only by appending a single
trailing colon, and it appends one exactly when `colonCondition` holds: the
stripped line is nonempty, ends in neither a colon nor a backslash, and its
first matching keyword strips to else/try/finally or the stripped line
contains both parentheses.  On the scenario input the if-line has no
parentheses, so no colon is appended, repair returns the input unchanged
with no advisory, and validate reports the syntax error. -/
theorem c2_amended :
    (∀ line : String, fixLine line = line ∨ fixLine line = line ++ ":") ∧
    (∀ line : String, fixLine line = line ++ ":" ↔ colonCondition line) ∧
    fix_syntax_errors pythonParses xC2 = (xC2, none) ∧
    validate_syntax pythonParses xC2 =
      "❌ Syntax Error: invalid syntax (<string>, line 2)\n\n💡 Common fixes:\n• Check for missing colons (:)\n• Check brackets matching\n• Check quote marks\n• Check indentation" := by
  refine ⟨?_, ?_, by decide, by decide⟩
  · intro line
    rcases fixLine_char line with ⟨_, h⟩ | ⟨_, h⟩
    · exact Or.inr h
    · exact Or.inl h
  · intro line
    constructor
    · intro h
      rcases fixLine_char line with ⟨hc, _⟩ | ⟨_, he⟩
      · exact hc
      · exfalso
        rw [he] at h
        have hlen := congrArg (fun s => s.data.length) h
        simp only [str_data_append, List.length_append] at hlen
        have hone : (":" : String).data.length = 1 := rfl
        rw [hone] at hlen
        omega
    · intro hc
      rcases fixLine_char line with ⟨_, he⟩ | ⟨hnc, _⟩
      · exact he
      · exact absurd hc hnc

/-- Witness for the amended C2: the iff applied at a bare `try` line, whose
condition is discharged concretely, yields the appended colon. -/
theorem c2_amended_witness : fixLine "try" = "try:" :=
  (c2_amended.2.1 "try").mpr
    ⟨by decide, by decide, by decide, "try", by decide, Or.inl (by decide)⟩

/-! ## C3: docstring removal scope -/

/-- A module whose first statement is a bare string literal. -/
def mod3 : PyModule := ⟨.cons (.exprStmt (.constE true "doc")) (.cons .simpleStmt .nil)⟩

/-- C3 counterexample: the transformer of `remove_docstrings` leaves the
module-level docstring in place (it has no module case), while the minify
transformer removes it. -/
theorem c3_counterexample :
    docstringRemoverM mod3 = mod3 ∧
    minifyTransformM mod3 = ⟨.cons .simpleStmt .nil⟩ := by
  exact ⟨by decide, by decide⟩

/-- C3 amended: the `remove_docstrings` transformer pops a leading bare
constant from every function, async-function and class body visited (after
the children, inserting `pass` when the body empties), but the module scope
keeps its leading string: the module body is only visited child-wise. -/
theorem c3_amended :
    (∀ (n : String) (e : PyExpr) (b : Stmts), isConstExpr e = true →
      stripDocS (.functionDef n (.cons (.exprStmt e) b)) =
        .functionDef n (match stripDocL b with | .nil => .cons .passStmt .nil | r => r) ∧
      stripDocS (.asyncFunctionDef n (.cons (.exprStmt e) b)) =
        .asyncFunctionDef n (match stripDocL b with | .nil => .cons .passStmt .nil | r => r) ∧
      stripDocS (.classDef n (.cons (.exprStmt e) b)) =
        .classDef n (match stripDocL b with | .nil => .cons .passStmt .nil | r => r)) ∧
    (∀ (e : PyExpr) (b : Stmts), isConstExpr e = true →
      docstringRemoverM ⟨.cons (.exprStmt e) b⟩ = ⟨.cons (.exprStmt e) (stripDocL b)⟩) := by
  constructor
  · intro n e b he
    cases e with
    | constE s v => exact ⟨rfl, rfl, rfl⟩
    | nameE i => exact Bool.noConfusion he
    | callE fn a => exact Bool.noConfusion he
    | joinedStr a b2 => exact Bool.noConfusion he
    | formattedValue v => exact Bool.noConfusion he
    | otherE => exact Bool.noConfusion he
  · intro e b _
    rfl

/-- Witness for the amended C3 at a one-docstring function and at `mod3`. -/
theorem c3_amended_witness :
    stripDocS (.functionDef "f" (.cons (.exprStmt (.constE true "doc")) .nil)) =
      .functionDef "f" (.cons .passStmt .nil) ∧
    docstringRemoverM mod3 = ⟨.cons (.exprStmt (.constE true "doc")) (.cons .simpleStmt .nil)⟩ :=
  ⟨(c3_amended.1 "f" (.constE true "doc") .nil (by decide)).1,
   c3_amended.2 (.constE true "doc") (.cons .simpleStmt .nil) (by decide)⟩

/-! ## C4: validity preservation -/

/-- C4 counterexample: the empty input parses, but the output of the basic
textual try/except wrapper on it has a try block with no statement in its
body and does not parse. -/
theorem c4_counterexample :
    pythonParses "" = ParseOutcome.ok ⟨Stmts.nil⟩ ∧
    add_try_except pythonParses "" = tryBadOut ∧
    (pythonParses (add_try_except pythonParses "")).isOk = false := by
  exact ⟨by decide, by decide, by decide⟩

/-- C4 amended: the tree transforms of `remove_docstrings` and
`wrap_functions_try_except` map well-formed trees to well-formed trees
(every required suite stays nonempty), which is the property that keeps
their re-serialized output parseable; the whole-program textual wrappers do
not preserve parse validity on statement-less input. -/
theorem c4_amended (m : PyModule) (h : wfM m = true) :
    wfM (docstringRemoverM m) = true ∧ wfM (wrapFunctionsM m) = true :=
  ⟨wfL_stripDocL m.body h, wfL_wrapL m.body h⟩

/-- A module with one docstring-only function, for the C4 witness. -/
def mW : PyModule :=
  ⟨.cons (.functionDef "f" (.cons (.exprStmt (.constE true "doc")) .nil)) .nil⟩

theorem c4_amended_witness :
    wfM (docstringRemoverM mW) = true ∧ wfM (wrapFunctionsM mW) = true :=
  c4_amended mW (by decide)

/-! ## C5: error containment -/

/-- C5: the `safe_process` wrapper converts every exception of the wrapped
transform into the failure text carrying the message (which starts with the
failure glyph), otherwise passes the result through with at most the
advisory prefixed; `code_stats` converts a parse failure of the repaired
text into a failure-glyph stats-error report.  No invocation produces
anything but one of these result strings. -/
theorem c5_error_containment (po : String → ParseOutcome)
    (f : String → Except PyErr String) (code : String) :
    (∀ e, f (fix_syntax_errors po code).1 = .error e →
      safe_process po f code = pyErrString e ∧ pyStartsWith (pyErrString e) "❌" = true) ∧
    (∀ r, f (fix_syntax_errors po code).1 = .ok r →
      safe_process po f code = r ∨
      safe_process po f code = "⚠️ Auto-fixed syntax errors" ++ "\n\n" ++ r) ∧
    (∀ (env : Env) (c m : String),
      env.po (fix_syntax_errors env.po c).1 = .syntaxError m ∨
        env.po (fix_syntax_errors env.po c).1 = .otherError m →
      code_stats env c =
          "❌ Stats error: " ++ m ++ "\n\n💡 Make sure your code has valid Python syntax" ∧
        pyStartsWith (code_stats env c) "❌" = true) := by
  refine ⟨?_, ?_, ?_⟩
  · intro e he
    have hsp : safe_process po f code = pyErrString e := by
      simp only [safe_process]
      rw [he]
    refine ⟨hsp, ?_⟩
    cases e with
    | syntaxError m =>
      exact pyStartsWith_append _ _ _ (pyStartsWith_append "❌ Syntax Error: " m "❌" (by decide))
    | other m =>
      exact pyStartsWith_append "❌ Error: " m "❌" (by decide)
  · intro r hr
    cases ho : (fix_syntax_errors po code).2 with
    | none =>
      left
      simp only [safe_process]
      rw [hr, ho]
    | some m =>
      have hm : m = "⚠️ Auto-fixed syntax errors" := by
        rcases fix_cases po code with hfc | ⟨msg, t, hA, hB, hC⟩
        · rw [hfc] at ho
          exact Option.noConfusion ho
        · rw [hC] at ho
          have : some "⚠️ Auto-fixed syntax errors" = some m := ho
          injection this with h
          exact h.symm
      subst hm
      by_cases hs : pyStartsWith r "❌" = true
      · left
        simp only [safe_process]
        rw [hr, ho]
        show (if pyStartsWith r "❌" = true then r
          else "⚠️ Auto-fixed syntax errors" ++ "\n\n" ++ r) = r
        rw [if_pos hs]
      · right
        simp only [safe_process]
        rw [hr, ho]
        show (if pyStartsWith r "❌" = true then r
          else "⚠️ Auto-fixed syntax errors" ++ "\n\n" ++ r) =
          "⚠️ Auto-fixed syntax errors" ++ "\n\n" ++ r
        rw [if_neg hs]
  · intro env c m hm
    have hcs : code_stats env c =
        "❌ Stats error: " ++ m ++ "\n\n💡 Make sure your code has valid Python syntax" := by
      rcases hm with hm | hm
      · simp only [code_stats]
        rw [hm]
      · simp only [code_stats]
        rw [hm]
    refine ⟨hcs, ?_⟩
    rw [hcs]
    exact pyStartsWith_append _ _ _ (pyStartsWith_append "❌ Stats error: " m "❌" (by decide))

/-- Witness for C5: a transform that throws is converted to the failure
text. -/
theorem c5_error_containment_witness :
    safe_process pythonParses (fun _ => .error (.other "boom")) "x = 1" =
      pyErrString (.other "boom") ∧
    pyStartsWith (pyErrString (.other "boom")) "❌" = true :=
  (c5_error_containment pythonParses (fun _ => .error (.other "boom")) "x = 1").1
    (.other "boom") rfl

/-! ## C6: result classification -/

/-- C6 counterexample: the cleanup transform on a comment-only input returns
the empty string, which carries neither marker glyph, yet the dispatcher
delivers it as message text, not as a code file. -/
theorem c6_counterexample :
    buttonDispatch envBare "cleanup" (some "# a") "code.py" = .message "" ∧
    remove_comments pythonParses "# a" = "" ∧
    pyStartsWith "" "❌" = false ∧ pyStartsWith "" "⚠️" = false ∧ sentAsFile "" = false := by
  exact ⟨by decide, by decide, by decide, by decide, by decide⟩

/-- C6 amended: a result starting with the failure glyph or the warning glyph
is never sent as a file, and any other nonempty result is sent as a file;
the empty result is delivered as message text. -/
theorem c6_amended (r : String) :
    (pyStartsWith r "❌" = true → sentAsFile r = false) ∧
    (pyStartsWith r "⚠️" = true → sentAsFile r = false) ∧
    (r ≠ "" → pyStartsWith r "❌" = false → pyStartsWith r "⚠️" = false →
      sentAsFile r = true) := by
  refine ⟨fun h => ?_, fun h => ?_, fun h1 h2 h3 => ?_⟩
  · simp [sentAsFile, h]
  · simp [sentAsFile, h]
  · simp [sentAsFile, h1, h2, h3]

theorem c6_amended_witness : sentAsFile "print(1)" = true :=
  (c6_amended "print(1)").2.2 (by decide) (by decide) (by decide)

/-! ## C7: unknown operations -/

/-- The callback-data identifiers registered in the `operations` dict
(src/bot.py lines 611-624). -/
def registeredOps : List String :=
  ["cleanup", "beautify", "black", "imports", "minify", "docstrings", "validate", "stats",
   "tryexcept_basic", "tryexcept_detailed", "tryexcept_logging", "tryexcept_functions"]

/-- C7 counterexample: the identifier `black` is not among the names the
claim lists (which has `black-format`), yet dispatching it runs the Black
transform and yields a degraded report, not the Unknown-operation failure. -/
theorem c7_counterexample :
    buttonDispatch envBare "black" (some "x = 1") "code.py" =
      .message "⚠️ Black not installed" ∧
    pyStartsWith "⚠️ Black not installed" "❌" = false := by
  exact ⟨by decide, by decide⟩

/-- C7 amended: with stored code present, dispatching any identifier outside
the two menu identifiers and the twelve registered callback identifiers
yields the Unknown-operation failure message and nothing else. -/
theorem c7_amended (env : Env) (code filename op : String) (hc : code ≠ "")
    (hop : op ∉ ("tryexcept_menu" :: "back_main" :: registeredOps)) :
    buttonDispatch env op (some code) filename = .message "❌ Unknown operation" := by
  simp only [registeredOps, List.mem_cons, not_or] at hop
  obtain ⟨h1, h2, h3, h4, h5, h6, h7, h8, h9, h10, h11, h12, h13, h14, _⟩ := hop
  unfold buttonDispatch
  rw [if_neg h1, if_neg h2]
  show (if code = "" then DispatchOutcome.message "❌ No code found. Please send code first!"
    else match operationsMap env op with
    | none => DispatchOutcome.message "❌ Unknown operation"
    | some f =>
      let result := f code
      if op = "validate" ∨ op = "stats" then .message result
      else if sentAsFile result then
        .fileOut result (fileCaption env op filename code.data.length result.data.length)
      else .message result) = DispatchOutcome.message "❌ Unknown operation"
  rw [if_neg hc]
  unfold operationsMap
  rw [if_neg h3, if_neg h4, if_neg h5, if_neg h6, if_neg h7, if_neg h8, if_neg h9, if_neg h10,
    if_neg h11, if_neg h12, if_neg h13, if_neg h14]

theorem c7_amended_witness :
    buttonDispatch envBare "frobnicate" (some "x = 1") "code.py" =
      .message "❌ Unknown operation" :=
  c7_amended envBare "x = 1" "code.py" "frobnicate" (by decide) (by decide)

/-! ## C8: statistics accuracy -/

/-- Lines 314-315: prepend the advisory when the repair produced one. -/
def advisoryWrap (adv : Option String) (s : String) : String :=
  match adv with
  | some m => m ++ "\n\n" ++ s
  | none => s

/-- C8: when the repaired text parses and the complexity analyzer is absent,
the stats report counts lines and comment lines on the original text and
definitions and imports on the full tree of the repaired text; on the fixed
40-line sample program the report is exactly 40 lines, 2 functions, 1 class,
3 imports, 5 comment lines; and the complexity divisor is floored at 1. -/
theorem c8_stats_accuracy :
    (∀ (env : Env) (code : String) (tree : PyModule),
      env.rcc = none →
      env.po (fix_syntax_errors env.po code).1 = .ok tree →
      code_stats env code =
        advisoryWrap (fix_syntax_errors env.po code).2
          (statsReport ((splitlinesPy code).length) (countFunctions tree)
            (countClasses tree) (countImports tree)
            (((splitlinesPy code).filter (fun l => pyStartsWith (pyStrip l) "#")).length))) ∧
    code_stats envBare sample40 = statsReport 40 2 1 3 5 ∧
    (∀ n : Nat, 1 ≤ avgDivisor n) := by
  refine ⟨?_, by decide, ?_⟩
  · intro env code tree hrcc hok
    simp only [code_stats]
    rw [hok, hrcc]
    cases (fix_syntax_errors env.po code).2 with
    | none => rfl
    | some m => rfl
  · intro n
    unfold avgDivisor
    by_cases h : n = 0
    · rw [if_pos h]
    · rw [if_neg h]
      omega

/-- Witness for C8 at the sample program. -/
theorem c8_stats_accuracy_witness :
    code_stats envBare sample40 =
      advisoryWrap (fix_syntax_errors pythonParses sample40).2
        (statsReport ((splitlinesPy sample40).length) (countFunctions sampleTree)
          (countClasses sampleTree) (countImports sampleTree)
          (((splitlinesPy sample40).filter (fun l => pyStartsWith (pyStrip l) "#")).length)) :=
  c8_stats_accuracy.1 envBare sample40 sampleTree rfl (by decide)

/-! ## C9: idempotence -/

/-- C9 counterexample: the decorated `remove_comments` is not idempotent: on
an input repaired by dedent the first run prefixes the advisory, and the
second run then strips the blank line after the advisory. -/
theorem c9_counterexample :
    remove_comments pythonParses (remove_comments pythonParses xIndent) ≠
      remove_comments pythonParses xIndent := by
  decide

/-- C9 amended: the undecorated comment-and-blank-line stripping body of
`remove_comments` is idempotent on every text. -/
theorem c9_amended (s : String) :
    remove_comments_core (remove_comments_core s) = remove_comments_core s := by
  unfold remove_comments_core
  rw [show (String.mk (removeCommentsL s.data)).data = removeCommentsL s.data from rfl,
    removeCommentsL_idem]

/-! ## C10: repaired results are never delivered as code files -/

/-- C10: when the repair pass produced an advisory and the transform
succeeded without a failure-marked result, the wrapped result is the
advisory-prefixed text; it starts with the warning glyph, so the dispatcher
classifies it as message text and never as a file. -/
theorem c10_advisory_classification (po : String → ParseOutcome)
    (f : String → Except PyErr String) (x m r : String)
    (h1 : (fix_syntax_errors po x).2 = some m)
    (h2 : f (fix_syntax_errors po x).1 = .ok r)
    (h3 : pyStartsWith r "❌" = false) :
    safe_process po f x = "⚠️ Auto-fixed syntax errors" ++ "\n\n" ++ r ∧
    pyStartsWith (safe_process po f x) "⚠️" = true ∧
    sentAsFile (safe_process po f x) = false := by
  have hm : m = "⚠️ Auto-fixed syntax errors" := by
    rcases fix_cases po x with hfc | ⟨msg, t, hA, hB, hC⟩
    · rw [hfc] at h1
      exact Option.noConfusion h1
    · rw [hC] at h1
      have h1b : some "⚠️ Auto-fixed syntax errors" = some m := h1
      injection h1b with h1b
      exact h1b.symm
  subst hm
  have hsp : safe_process po f x = "⚠️ Auto-fixed syntax errors" ++ "\n\n" ++ r := by
    simp only [safe_process]
    rw [h2, h1]
    show (if pyStartsWith r "❌" = true then r
      else "⚠️ Auto-fixed syntax errors" ++ "\n\n" ++ r) =
      "⚠️ Auto-fixed syntax errors" ++ "\n\n" ++ r
    rw [if_neg (by simp [h3])]
  have hw : pyStartsWith ("⚠️ Auto-fixed syntax errors" ++ "\n\n" ++ r) "⚠️" = true :=
    pyStartsWith_append _ r "⚠️" (by decide)
  refine ⟨hsp, ?_, ?_⟩
  · rw [hsp]
    exact hw
  · rw [hsp]
    unfold sentAsFile
    rw [hw]
    simp

/-- Witness for C10 at the dedent-repaired input and the cleanup transform. -/
theorem c10_advisory_classification_witness :
    safe_process pythonParses (fun c => .ok (remove_comments_core c)) xIndent =
      "⚠️ Auto-fixed syntax errors" ++ "\n\n" ++ "x = 1\n" ∧
    pyStartsWith
      (safe_process pythonParses (fun c => .ok (remove_comments_core c)) xIndent) "⚠️" = true ∧
    sentAsFile (safe_process pythonParses (fun c => .ok (remove_comments_core c)) xIndent) =
      false :=
  c10_advisory_classification pythonParses (fun c => .ok (remove_comments_core c)) xIndent
    "⚠️ Auto-fixed syntax errors" "x = 1\n" (by decide) rfl (by decide)
